import Mathlib

/-!
Verification development for the multi-agent e-commerce customer-service
orchestrator (`backend/main.py`, `backend/agents/*.py`, `backend/config.py`).

The Python code is embedded shallowly:

* pure helpers (`str.lower`, `kw in msg`, the keyword classifier, the JSON
  extraction regex, `json.loads` on the JSON subset the code handles) become
  Lean functions;
* the stateful turn pipeline (`process_message`, `BaseAgent.process`, the
  reroute loop, the tool-call loop of `_llm_process`) becomes explicit state
  passing in `Except Unit` — the modelled failures are the exceptions the
  Python code does not catch: exceptions raised by the optional event sink
  (`event_callback`), the `AttributeError` from `reroute.get(...)` when a
  reroute directive is not a dict, the `AttributeError` from
  `target_agent_name.upper()` when the directive's `agent` value is not a
  string, and the `TypeError` from `AGENT_MAP.get(category)` when the parsed
  category is unhashable (a list or dict);
* the external LLM backends and the measured wall-clock latencies are
  nondeterministic inputs, so they are parameters: each agent invocation's
  backend-produced fields (`text`, `classification`, `reroute`, the events its
  scripted/live body emits, and its measured `total_latency_ms`) are supplied
  by a `HopBehavior` environment value, and `_llm_process`'s backend is a
  function from call index to optional raw output (`none` models a transport
  exception).

Events delivered to the live sink are additionally recorded in a `delivered`
trace threaded through the computation, so that theorems can speak about what
the sink received.
-/

namespace Taco

/-- Model of Python's `needle in haystack` substring test, on char lists. -/
def subAt : List Char → List Char → Bool
  | [], _ => true
  | _ :: _, [] => false
  | n, l@(_ :: t) => List.isPrefixOf n l || subAt n t

/-- Python `needle in haystack` for strings (substring containment). -/
def pyIn (needle haystack : String) : Bool :=
  subAt needle.data haystack.data

/-- Python `str.lower` (faithful on the ASCII data the code handles). -/
def pyLower (s : String) : String := ⟨s.data.map Char.toLower⟩

/-- Python `str.upper` (faithful on the ASCII data the code handles). -/
def pyUpper (s : String) : String := ⟨s.data.map Char.toUpper⟩

/-- JSON values, the codomain of `json.loads` as used by the code.
Numbers are modelled as exact rationals (the decimal literals the code
compares — 0.3, 0.5, 0.65, 0.98 … — are never close enough for float
rounding to flip a comparison). -/
inductive Json where
  | null : Json
  | bool (b : Bool) : Json
  | num (q : ℚ) : Json
  | str (s : String) : Json
  | arr (elems : List Json) : Json
  | obj (members : List (String × Json)) : Json

/-- Dict lookup with Python `dict` semantics: on duplicate keys produced by
`json.loads` the last binding wins. -/
def lookupLast (k : String) : List (String × Json) → Option Json
  | [] => none
  | (k', v) :: rest =>
    match lookupLast k rest with
    | some r => some r
    | none => if k' = k then some v else none

/-- Python `d.get(key)` on a parsed JSON value (none when not a dict or the
key is absent). -/
def pyDictGet (j : Json) (key : String) : Option Json :=
  match j with
  | .obj kvs => lookupLast key kvs
  | _ => none

/-- Python `d.get(key, default)` where the caller expects a string. -/
def jsonStrD (j : Json) (key : String) (d : String) : String :=
  match pyDictGet j key with
  | some (.str s) => s
  | _ => d

/-- Python `d.get(key, default)` where the caller expects a number. -/
def jsonNumD (j : Json) (key : String) (d : ℚ) : ℚ :=
  match pyDictGet j key with
  | some (.num q) => q
  | _ => d

/-- Python `j == "s"`: true exactly when the value is the string `s`. -/
def jsonIsStr (j : Json) (s : String) : Bool :=
  match j with
  | .str t => t = s
  | _ => false

/-! ### A model of `json.loads` on the JSON grammar

A fuel-indexed recursive-descent parser; the fuel is the input length, which
bounds the recursion depth since every nested call has consumed at least one
character. -/

/-- JSON whitespace skipping (space, tab, newline, carriage return). -/
def skipWs : List Char → List Char
  | [] => []
  | c :: rest =>
    if c = ' ' ∨ c = '\t' ∨ c = '\n' ∨ c = '\r' then skipWs rest else c :: rest

/-- Value of a hexadecimal digit. -/
def hexVal (c : Char) : Option Nat :=
  if '0' ≤ c ∧ c ≤ '9' then some (c.toNat - '0'.toNat)
  else if 'a' ≤ c ∧ c ≤ 'f' then some (c.toNat - 'a'.toNat + 10)
  else if 'A' ≤ c ∧ c ≤ 'F' then some (c.toNat - 'A'.toNat + 10)
  else none

/-- Parse the remainder of a JSON string literal (after the opening quote):
returns the decoded characters and the input after the closing quote.
Raw control characters are rejected and escapes are decoded, as in Python's
strict-mode `json.loads`. -/
def parseStringRest : List Char → Option (List Char × List Char)
  | [] => none
  | c :: rest =>
    if c = '"' then some ([], rest)
    else if c = '\\' then
      match rest with
      | [] => none
      | e :: rest2 =>
        if e = 'u' then
          match rest2 with
          | a :: b :: c2 :: d :: rest3 =>
            match hexVal a, hexVal b, hexVal c2, hexVal d with
            | some ha, some hb, some hc, some hd =>
              match parseStringRest rest3 with
              | some (cs, rem) =>
                some (Char.ofNat (((ha * 16 + hb) * 16 + hc) * 16 + hd) :: cs, rem)
              | none => none
            | _, _, _, _ => none
          | _ => none
        else
          match
            (if e = '"' then some '"'
             else if e = '\\' then some '\\'
             else if e = '/' then some '/'
             else if e = 'b' then some (Char.ofNat 8)
             else if e = 'f' then some (Char.ofNat 12)
             else if e = 'n' then some '\n'
             else if e = 'r' then some (Char.ofNat 13)
             else if e = 't' then some '\t'
             else none) with
          | some ch =>
            match parseStringRest rest2 with
            | some (cs, rem) => some (ch :: cs, rem)
            | none => none
          | none => none
    else if c.toNat < 32 then none
    else
      match parseStringRest rest with
      | some (cs, rem) => some (c :: cs, rem)
      | none => none

/-- Take a maximal run of decimal digits. -/
def takeDigits : List Char → List Char × List Char
  | [] => ([], [])
  | c :: rest =>
    if c.isDigit then
      match takeDigits rest with
      | (ds, rem) => (c :: ds, rem)
    else ([], c :: rest)

/-- Numeric value of a digit run. -/
def digitsToNat : List Char → Nat → Nat
  | [], acc => acc
  | c :: rest, acc => digitsToNat rest (acc * 10 + (c.toNat - '0'.toNat))

/-- Parse a JSON number after an optional leading minus sign has been
consumed: integer part (`0` or a nonzero-led digit run), optional fraction,
optional exponent. -/
def parseNumberCore (l : List Char) : Option (ℚ × List Char) :=
  match l with
  | [] => none
  | c :: rest =>
    if ¬ c.isDigit then none
    else
      let (intDigits, rem) := if c = '0' then ([c], rest) else takeDigits l
      let (fracDigits, rem2) :=
        match rem with
        | '.' :: r =>
          match takeDigits r with
          | ([], _) => ([], rem)      -- a dot with no digits: leave it unconsumed, the caller fails
          | (ds, r2) => (ds, r2)
        | _ => ([], rem)
      let expPart : Option (Bool × Nat × List Char) :=
        match rem2 with
        | 'e' :: r => parseExpTail r
        | 'E' :: r => parseExpTail r
        | _ => none
      -- the digits encode mant / 10^|frac|, then the exponent shifts the
      -- scale; built with `mkRat` over ℕ arithmetic so values compute
      let mant : Nat := digitsToNat intDigits 0 * 10 ^ fracDigits.length
                          + digitsToNat fracDigits 0
      match expPart with
      | some (neg, e, rem3) =>
        if neg then some (mkRat (Int.ofNat mant) (10 ^ (fracDigits.length + e)), rem3)
        else some (mkRat (Int.ofNat (mant * 10 ^ e)) (10 ^ fracDigits.length), rem3)
      | none => some (mkRat (Int.ofNat mant) (10 ^ fracDigits.length), rem2)
where
  /-- Exponent tail: optional sign then at least one digit. -/
  parseExpTail (r : List Char) : Option (Bool × Nat × List Char) :=
    match r with
    | '+' :: r2 =>
      match takeDigits r2 with
      | ([], _) => none
      | (ds, r3) => some (false, digitsToNat ds 0, r3)
    | '-' :: r2 =>
      match takeDigits r2 with
      | ([], _) => none
      | (ds, r3) => some (true, digitsToNat ds 0, r3)
    | _ =>
      match takeDigits r with
      | ([], _) => none
      | (ds, r3) => some (false, digitsToNat ds 0, r3)

/-- Check that `pat` is a literal prefix, returning the remainder. -/
def expectLit : List Char → List Char → Option (List Char)
  | [], l => some l
  | _ :: _, [] => none
  | p :: ps, c :: cs => if p = c then expectLit ps cs else none

mutual

/-- Parse one JSON value (fuel-indexed; mirrors `json.loads`'s grammar). -/
def parseValue : Nat → List Char → Option (Json × List Char)
  | 0, _ => none
  | fuel + 1, l =>
    match skipWs l with
    | [] => none
    | c :: rest =>
      if c = '"' then
        match parseStringRest rest with
        | some (cs, rem) => some (.str ⟨cs⟩, rem)
        | none => none
      else if c = '{' then
        match skipWs rest with
        | '}' :: rem => some (.obj [], rem)
        | l2 => parseMembers fuel l2
      else if c = '[' then
        match skipWs rest with
        | ']' :: rem => some (.arr [], rem)
        | l2 => parseElements fuel l2
      else if c = 't' then
        match expectLit ['r', 'u', 'e'] rest with
        | some rem => some (.bool true, rem)
        | none => none
      else if c = 'f' then
        match expectLit ['a', 'l', 's', 'e'] rest with
        | some rem => some (.bool false, rem)
        | none => none
      else if c = 'n' then
        match expectLit ['u', 'l', 'l'] rest with
        | some rem => some (.null, rem)
        | none => none
      else if c = '-' then
        match parseNumberCore rest with
        | some (q, rem) => some (.num (Rat.neg q), rem)
        | none => none
      else
        match parseNumberCore (c :: rest) with
        | some (q, rem) => some (.num q, rem)
        | none => none

/-- Parse the members of a JSON object, consuming the closing brace. -/
def parseMembers : Nat → List Char → Option (Json × List Char)
  | 0, _ => none
  | fuel + 1, l =>
    match skipWs l with
    | '"' :: rest =>
      match parseStringRest rest with
      | none => none
      | some (key, rest2) =>
        match skipWs rest2 with
        | ':' :: rest3 =>
          match parseValue fuel rest3 with
          | none => none
          | some (v, rest4) =>
            match skipWs rest4 with
            | ',' :: rest5 =>
              match parseMembers fuel rest5 with
              | some (.obj kvs, rest6) => some (.obj ((⟨key⟩, v) :: kvs), rest6)
              | _ => none
            | '}' :: rest5 => some (.obj [(⟨key⟩, v)], rest5)
            | _ => none
        | _ => none
    | _ => none

/-- Parse the elements of a JSON array, consuming the closing bracket. -/
def parseElements : Nat → List Char → Option (Json × List Char)
  | 0, _ => none
  | fuel + 1, l =>
    match parseValue fuel l with
    | none => none
    | some (v, rest) =>
      match skipWs rest with
      | ',' :: rest2 =>
        match parseElements fuel rest2 with
        | some (.arr vs, rest3) => some (.arr (v :: vs), rest3)
        | _ => none
      | ']' :: rest2 => some (.arr [v], rest2)
      | _ => none

end

/-- Model of `json.loads s`: one JSON value spanning the whole input (up to
surrounding whitespace), `none` where Python raises `JSONDecodeError`. -/
def Json.parse (s : String) : Option Json :=
  match parseValue (s.length + 1) s.data with
  | some (j, rem) => if skipWs rem = [] then some j else none
  | none => none

/-- Serialize a JSON value (model of `json.dumps` with default separators;
only the length of the result feeds the approximate token counts). -/
def Json.dumps : Json → String
  | .null => "null"
  | .bool true => "true"
  | .bool false => "false"
  | .num q => toString q.num ++ (if q.den = 1 then "" else "/" ++ toString q.den)
  | .str s => "\"" ++ s ++ "\""
  | .arr elems => "[" ++ String.intercalate ", " (dumpsList elems) ++ "]"
  | .obj kvs => "\x7b" ++ String.intercalate ", " (dumpsMembers kvs) ++ "\x7d"
where
  /-- Serialize array elements. -/
  dumpsList : List Json → List String
    | [] => []
    | j :: rest => dumps j :: dumpsList rest
  /-- Serialize object members. -/
  dumpsMembers : List (String × Json) → List String
    | [] => []
    | (k, v) :: rest => ("\"" ++ k ++ "\": " ++ dumps v) :: dumpsMembers rest

/-- Python `str(j)` for a parsed JSON value as used in f-strings and event
payloads: a string value prints bare, other values via their
serialization. -/
def pyStrOf (j : Json) : String :=
  match j with
  | .str s => s
  | _ => j.dumps

/-! ### The JSON-extraction regex of `parse_classification`

`router.py` line 115 uses `re.search(r'\{[^}]+\}', text)`: the leftmost span
that starts at an opening brace, continues with one or more characters none
of which is a closing brace, and ends at the first closing brace. -/

/-- Characters of the input before its first closing brace (none when the
input has no closing brace). -/
def takeUntilRBrace : List Char → Option (List Char)
  | [] => none
  | c :: rest =>
    if c = '}' then some []
    else
      match takeUntilRBrace rest with
      | some body => some (c :: body)
      | none => none

/-- Leftmost match of the pattern `\x7b[^\x7d]+\x7d`: Python's `re.search`
tries each start position left to right; at a position holding an opening
brace the greedy `[^\x7d]+` runs to the first closing brace and requires at
least one character in between. -/
def firstFlatSpan : List Char → Option (List Char)
  | [] => none
  | c :: rest =>
    if c = '{' then
      match takeUntilRBrace rest with
      | some [] => firstFlatSpan rest
      | some body => some ('{' :: (body ++ ['}']))
      | none => firstFlatSpan rest
    else firstFlatSpan rest

/-- `re.search(r'\{[^}]+\}', s)` returning the matched span. -/
def extractJsonSpan (s : String) : Option String :=
  (firstFlatSpan s.data).map fun cs => ⟨cs⟩

/-- Scan for a balanced-brace span starting at depth `depth` (the opening
brace already consumed), returning the span including its closing brace. -/
def balancedFrom : List Char → Nat → Option (List Char)
  | [], _ => none
  | c :: rest, depth =>
    if c = '}' then
      if depth = 1 then some ['}']
      else
        match balancedFrom rest (depth - 1) with
        | some span => some (c :: span)
        | none => none
    else if c = '{' then
      match balancedFrom rest (depth + 1) with
      | some span => some (c :: span)
      | none => none
    else
      match balancedFrom rest depth with
      | some span => some (c :: span)
      | none => none

/-- Input remainder after the first opening brace. -/
def afterFirstLBrace : List Char → Option (List Char)
  | [] => none
  | c :: rest => if c = '{' then some rest else afterFirstLBrace rest

/-- Modelled from the spec ("extract the first balanced JSON object from the
raw text", "recoverable via first-balanced-JSON extraction"): the span from
the first opening brace to the brace that balances it, parsed as JSON.  This
is the specification-side definition used to compare against the code's
flat-span regex; it exists only for that comparison. -/
def spec_firstBalancedJson (s : String) : Option Json :=
  match afterFirstLBrace s.data with
  | none => none
  | some rest =>
    match balancedFrom rest 1 with
    | none => none
    | some span => Json.parse ⟨'{' :: span⟩

/-! ### Configuration (`config.py`) -/

/-- Display info returned by `Settings.get_model_info`. -/
structure ModelInfo where
  model : String
  qgpu_slice : String
  endpoint : String
  deriving DecidableEq, Repr

/-- The fields of `Settings` the orchestrator core reads (defaults from
`config.py`; the demo runs with these values). -/
structure Settings where
  model1_base_url : String
  model1_display : String
  model1_qgpu_slice : String
  model2_base_url : String
  model2_display : String
  model2_qgpu_slice : String
  max_tool_iterations : Nat
  max_reroutes : Nat
  max_history_messages : Nat

/-- The default settings instance (`settings = Settings()`). -/
def settings : Settings where
  model1_base_url := "http://localhost:8081/v1"
  model1_display := "Qwen3-VL-8B"
  model1_qgpu_slice := "Slice 1 (16GB)"
  model2_base_url := "http://localhost:8082/v1"
  model2_display := "Qwen2.5-VL-7B"
  model2_qgpu_slice := "Slice 2 (16GB)"
  max_tool_iterations := 5
  max_reroutes := 2
  max_history_messages := 20

/-- `Settings.get_model_info`: router and product advisor live on model
server 1, every other agent type on model server 2. -/
def Settings.get_model_info (s : Settings) (agent_type : String) : ModelInfo :=
  if agent_type = "router" ∨ agent_type = "product_advisor" then
    { model := s.model1_display, qgpu_slice := s.model1_qgpu_slice,
      endpoint := s.model1_base_url }
  else
    { model := s.model2_display, qgpu_slice := s.model2_qgpu_slice,
      endpoint := s.model2_base_url }

/-! ### Agents and the keyword classifier (`agents/router.py`) -/

/-- An agent instance: for the orchestrator-level model only the
`agent_type` string matters (`model_info` is recomputed from settings, as in
`BaseAgent.__init__`). -/
structure Agent where
  agent_type : String
  deriving DecidableEq, Repr

/-- `model_info` bound in `BaseAgent.__init__`. -/
def Agent.model_info (a : Agent) : ModelInfo :=
  settings.get_model_info a.agent_type

/-- The module-level router instance. -/
def router_agent : Agent := ⟨"router"⟩

/-- The module-level order tracker instance. -/
def order_tracker : Agent := ⟨"order_tracker"⟩

/-- The module-level returns agent instance. -/
def returns_agent : Agent := ⟨"returns"⟩

/-- The module-level product advisor instance. -/
def product_advisor : Agent := ⟨"product_advisor"⟩

/-- `AGENT_MAP.get(key)` for a string key. -/
def agentMapGetStr (key : String) : Option Agent :=
  if key = "ORDER_STATUS" then some order_tracker
  else if key = "RETURNS" then some returns_agent
  else if key = "PRODUCT_ADVISOR" then some product_advisor
  else none

/-- `AGENT_MAP.get(category)` where the category is a parsed JSON value
(`main.py` line 184): a string key is looked up in the map; a number,
boolean or null is hashable but not present, so the lookup misses; a list or
dict key raises an uncaught `TypeError: unhashable type`, which aborts the
turn (modelled as `.error`). -/
def agentMapGet (category : Json) : Except Unit (Option Agent) :=
  match category with
  | .str s => .ok (agentMapGetStr s)
  | .arr _ => .error ()
  | .obj _ => .error ()
  | _ => .ok none

/-- The `name_map` fallback of the reroute loop (`main.py` line 223). -/
def nameMapGet (name : String) : Option Agent :=
  if name = "returns" then some returns_agent
  else if name = "order_tracker" then some order_tracker
  else if name = "product_advisor" then some product_advisor
  else none

/-- `_ORDER_KEYWORDS`. -/
def orderKeywords : List String :=
  ["order", "track", "delivery", "where is", "package", "shipping", "shipped",
   "status", "eta", "courier"]

/-- `_RETURN_KEYWORDS`. -/
def returnKeywords : List String :=
  ["return", "refund", "broken", "defective", "damaged", "cancel", "warranty",
   "wrong item", "cracked"]

/-- `_PRODUCT_KEYWORDS`. -/
def productKeywords : List String :=
  ["recommend", "compare", "suggest", "which", "should i", "buy", "compatible",
   "case for", "specs", "better", "vs", "or the"]

/-- `_ESCALATE_KEYWORDS`. -/
def escalateKeywords : List String :=
  ["lawyer", "legal", "complaint", "consumer protection", "sue",
   "called 5 times", "nobody helps", "filing"]

/-- `any(kw in msg_lower for kw in kws)`. -/
def anyKeyword (kws : List String) (msg_lower : String) : Bool :=
  kws.any fun kw => pyIn kw msg_lower

/-- Build one of `_classify_mock`'s result dicts. -/
def mkClassification (category : String) (confidence : ℚ) (has_image : Bool) : Json :=
  .obj [("category", .str category), ("confidence", .num confidence),
        ("language", .str "en"), ("has_image", .bool has_image)]

/-- `RouterAgent._classify_mock`: priority-ordered keyword matching with
fixed per-branch confidences. -/
def classify_mock (message : String) (has_image : Bool) : Json :=
  let msg_lower := pyLower message
  if anyKeyword escalateKeywords msg_lower then
    mkClassification "ESCALATE" (mkRat 98 100) has_image
  else if anyKeyword returnKeywords msg_lower then
    mkClassification "RETURNS" (if has_image then mkRat 97 100 else mkRat 93 100) has_image
  else if anyKeyword productKeywords msg_lower then
    mkClassification "PRODUCT_ADVISOR" (if ¬ has_image then mkRat 96 100 else mkRat 88 100) has_image
  else if anyKeyword orderKeywords msg_lower then
    mkClassification "ORDER_STATUS" (if ¬ has_image then mkRat 93 100 else mkRat 91 100) has_image
  else if has_image then
    mkClassification "PRODUCT_ADVISOR" (mkRat 75 100) true
  else
    mkClassification "CLARIFY" (mkRat 50 100) has_image

/-- The default classification `parse_classification` degrades to. -/
def defaultClassification : Json :=
  .obj [("category", .str "CLARIFY"), ("confidence", .num 0),
        ("language", .str "en"), ("has_image", .bool false)]

/-! ### Events, the sink and `BaseAgent.process` (`agents/base.py`) -/

/-- A typed event.  The constructors cover the event dicts the orchestrator
core builds itself (`agent_start` from `BaseAgent.process` and the escalation
branch, `model_switch`, `reroute`, `response`); `inner` abstracts an event
emitted by an agent's scripted/live body (routing, thinking, tool_call,
tool_result, cost), whose payload the orchestrator never inspects.  The
`response` payload carries the endpoint only where the code splats the whole
`model_info` dict into it (the ESCALATE and CLARIFY branches). -/
inductive Event where
  | agent_start (agent : String) (info : ModelInfo) : Event
  | model_switch (from_model from_slice to_model to_slice : String) : Event
  | reroute_ev (src tgt from_model to_model reason : String) : Event
  | response (text agent model qgpu_slice : String) (endpoint : Option String)
      (total_latency_ms : Nat) : Event
  | inner (agent : String) (k : Nat) : Event
  deriving DecidableEq, Repr

/-- A live event sink (`event_callback`): `f e = false` models the callback
raising an exception when invoked on `e`. -/
abbrev Sink := Event → Bool

/-- One direct `await event_callback(event)` call guarded by
`if event_callback:` — nothing happens without a sink; with one, the event is
delivered (recorded in the `delivered` trace) or the callback's exception
propagates. -/
def callSink (sink : Option Sink) (delivered : List Event) (e : Event) :
    Except Unit (List Event) :=
  match sink with
  | none => .ok delivered
  | some f => if f e then .ok (delivered ++ [e]) else .error ()

/-- The `emit` closure of `BaseAgent.process`: append the event to the local
`events` list, then invoke the live sink if present; a raising sink
propagates (the local append before the raise is unobservable because the
list is lost with the aborted call). -/
def emitLocal (sink : Option Sink) (delivered events : List Event) (e : Event) :
    Except Unit (List Event × List Event) :=
  match callSink sink delivered e with
  | .error u => .error u
  | .ok d => .ok (d, events ++ [e])

/-- Emit a list of events through `emitLocal` in order. -/
def emitAll (sink : Option Sink) (delivered events : List Event) :
    List Event → Except Unit (List Event × List Event)
  | [] => .ok (delivered, events)
  | e :: rest =>
    match emitLocal sink delivered events e with
    | .error u => .error u
    | .ok (d, evs) => emitAll sink d evs rest

/-- The result dict of `BaseAgent.process` (after the metadata keys are
stamped on at lines 76–81 of `base.py`). -/
structure AgentResult where
  text : String
  thinking : String
  classification : Option Json
  reroute : Option Json
  total_latency_ms : Nat
  agent : String
  model : String
  qgpu_slice : String
  events : List Event

/-- Environment for one agent invocation: the fields its scripted or live
body (`_mock_process` / `_llm_process`) produces, the events that body emits
through `emit`, and the measured wall-clock latency.  These are the
nondeterministic inputs of `BaseAgent.process`. -/
structure HopBehavior where
  text : String
  thinking : String
  classification : Option Json
  reroute : Option Json
  innerEvents : List Event
  latency : Nat

/-- `BaseAgent.process`: emit `agent_start`, run the body (whose emissions
and result fields come from the `HopBehavior` environment), then stamp the
measured latency and the agent/model metadata onto the result. -/
def agentProcess (a : Agent) (b : HopBehavior) (sink : Option Sink)
    (delivered : List Event) : Except Unit (AgentResult × List Event) :=
  match emitLocal sink delivered [] (.agent_start a.agent_type a.model_info) with
  | .error u => .error u
  | .ok (d1, evs1) =>
    match emitAll sink d1 evs1 b.innerEvents with
    | .error u => .error u
    | .ok (d2, evs2) =>
      .ok ({ text := b.text, thinking := b.thinking,
             classification := b.classification, reroute := b.reroute,
             total_latency_ms := b.latency, agent := a.agent_type,
             model := a.model_info.model, qgpu_slice := a.model_info.qgpu_slice,
             events := evs2 }, d2)

/-- `RouterAgent.parse_classification`: a `classification` key (mock path)
is returned as is; otherwise the first flat-brace span of the raw text is
fed to `json.loads`, and any failure (no span, or the span is not valid
JSON) degrades to the default CLARIFY classification. -/
def parse_classification (result : AgentResult) : Json :=
  match result.classification with
  | some c => c
  | none =>
    match extractJsonSpan result.text with
    | some s =>
      match Json.parse s with
      | some j => j
      | none => defaultClassification
    | none => defaultClassification

/-! ### The orchestrator (`main.py`, `process_message`) -/

/-- One stored conversation message. -/
structure Message where
  role : String
  content : String
  deriving DecidableEq, Repr

/-- The dict returned by `process_message`. -/
structure TurnResult where
  conversation_id : String
  response : String
  agent : String
  model : String
  qgpu_slice : String
  classification : Json
  events : List Event
  total_latency_ms : Nat

/-- Environment of one turn: the request fields plus the nondeterministic
inputs — the router invocation's behavior, the behavior of the `k`-th
specialist invocation (initial dispatch is `k = 0`, reroute hops follow),
and the fresh `uuid4` hex fragment of the escalation case reference. -/
structure TurnEnv where
  message : String
  customer_id : String
  conversation_id : String
  image : Option String
  routerBehavior : HopBehavior
  hopBehaviors : Nat → HopBehavior
  escRef : String

/-- Full outcome of a turn.  `res` and `history` are what the Python
function returns and stores; `delivered` is the trace of events received by
the live sink, and `hopResults` records each specialist invocation's result
in order (the values the Python code holds in `specialist_result` over
time) — instrumentation only, read by no later step. -/
structure TurnOut where
  res : TurnResult
  delivered : List Event
  history : List Message
  hopResults : List AgentResult

/-- Python truthiness of a parsed JSON value, as tested by
`while reroute and ...` (`main.py` line 217): `None`, `False`, zero, the
empty string, the empty list and the empty dict are falsy. -/
def Json.pyTruthy : Json → Bool
  | .null => false
  | .bool b => b
  | .num q => decide (q.num ≠ 0)
  | .str s => decide (s ≠ "")
  | .arr elems => ! elems.isEmpty
  | .obj members => ! members.isEmpty

/-- `reroute.get("agent", "")` followed by `.upper()` on the use site
(`main.py` lines 219–220): a (truthy) non-dict directive raises an uncaught
`AttributeError` at `.get`, and a present non-string agent value raises an
uncaught `AttributeError` at `.upper()` — both abort the turn (modelled as
`.error`).  A missing key defaults to the empty string. -/
def rerouteAgentName (r : Json) : Except Unit String :=
  match r with
  | .obj members =>
    match lookupLast "agent" members with
    | none => .ok ""
    | some (.str s) => .ok s
    | some _ => .error ()
  | _ => .error ()

/-- `reroute.get("reason", "")` (`main.py` line 240): reached only for dict
directives; the raw value goes into the `reroute` event payload, rendered
here as its string form. -/
def rerouteReason (r : Json) : String :=
  match pyDictGet r "reason" with
  | some v => pyStrOf v
  | none => ""

/-- The escalation response text (`main.py` lines 114–121), with the
`uuid4().hex[:6].upper()` fragment supplied by the environment. -/
def escalationText (escRef : String) : String :=
  "I completely understand your frustration, and I sincerely apologize for the difficulties you've experienced. " ++
  "Your case is important to us. I'm escalating this to our **senior support team** right now — " ++
  "a supervisor will contact you within **2 hours** via your preferred contact method. " ++
  "They will have full context of your previous interactions. " ++
  "Your case reference is **ESC-" ++ escRef ++ "**. " ++
  "Is there anything else I can note for the supervisor?"

/-- The CLARIFY menu text (`main.py` lines 155–160). -/
def clarifyText : String :=
  "I'd like to help you! Could you tell me a bit more about what you need? For example:\n" ++
  "- **Order tracking**: \"Where is my order?\" or provide an order ID\n" ++
  "- **Returns/refunds**: \"I want to return...\" or \"My item is damaged\"\n" ++
  "- **Product advice**: \"Which laptop should I buy?\" or \"Compare these TVs\""

/-- The reroute `while` loop of `process_message` (lines 215–265).  `fuel`
is `settings.max_reroutes - reroute_count`, so the guard
`reroute_count < settings.max_reroutes` is `fuel > 0`; the other half of
the guard, `while reroute ...`, is Python truthiness of the directive, so a
falsy directive (absent key, `null`, `false`, zero, `""`, `[]`, `{}`) ends
the loop; `callIdx` indexes the environment's specialist behaviors;
`hopAcc` accumulates the successive values of `specialist_result`
(instrumentation).  A truthy directive that is not a dict, or one whose
`agent` value is not a string, crashes target resolution
(`rerouteAgentName` returns `.error`) and the exception propagates. -/
def rerouteLoop (env : TurnEnv) (sink : Option Sink) : Nat → Agent → AgentResult →
    String → List Event → List Event → List AgentResult → Nat →
    Except Unit (Agent × AgentResult × String × List Event × List Event × List AgentResult)
  | 0, specialist, specRes, response_text, all_events, delivered, hopAcc, _ =>
    .ok (specialist, specRes, response_text, all_events, delivered, hopAcc)
  | fuel + 1, specialist, specRes, response_text, all_events, delivered, hopAcc, callIdx =>
    match specRes.reroute with
    | none => .ok (specialist, specRes, response_text, all_events, delivered, hopAcc)
    | some r =>
      if r.pyTruthy then
        match rerouteAgentName r with
        | .error u => .error u
        | .ok target_agent_name =>
          match (match agentMapGetStr (pyUpper target_agent_name) with
                 | some a => some a
                 | none => nameMapGet target_agent_name) with
          | none => .ok (specialist, specRes, response_text, all_events, delivered, hopAcc)
          | some target =>
            match callSink sink delivered
                (.reroute_ev specialist.agent_type target.agent_type
                  specialist.model_info.model target.model_info.model (rerouteReason r)) with
            | .error u => .error u
            | .ok d1 =>
              match (if specialist.model_info.qgpu_slice ≠ target.model_info.qgpu_slice then
                       callSink sink d1
                         (.model_switch specialist.model_info.model specialist.model_info.qgpu_slice
                           target.model_info.model target.model_info.qgpu_slice)
                     else .ok d1) with
              | .error u => .error u
              | .ok d2 =>
                match agentProcess target (env.hopBehaviors callIdx) sink d2 with
                | .error u => .error u
                | .ok (specRes', d3) =>
                  rerouteLoop env sink fuel target specRes' specRes'.text
                    (all_events ++ specRes'.events) d3 (hopAcc ++ [specRes']) (callIdx + 1)
      else .ok (specialist, specRes, response_text, all_events, delivered, hopAcc)

/-- `process_message`: route, parse the classification, branch on the
category (ESCALATE / CLARIFY short-circuits, otherwise dispatch to the
mapped specialist with the reroute loop), store the turn, and assemble the
result.  The conversation store is modelled by the history list of the
turn's conversation id (read once at the start, the updated list returned in
`TurnOut.history`). -/
def process_message (env : TurnEnv) (sink : Option Sink) (history : List Message) :
    Except Unit TurnOut :=
  match agentProcess router_agent env.routerBehavior sink [] with
  | .error u => .error u
  | .ok (router_result, delivered) =>
    let classification := parse_classification router_result
    let category := (pyDictGet classification "category").getD (.str "CLARIFY")
    if jsonIsStr category "ESCALATE" then
      let text := escalationText env.escRef
      let model_info := settings.get_model_info "router"
      match callSink sink delivered (.agent_start "escalation" model_info) with
      | .error u => .error u
      | .ok d1 =>
        match callSink sink d1
            (.response text "escalation" model_info.model model_info.qgpu_slice
              (some model_info.endpoint) (router_result.total_latency_ms + 50)) with
        | .error u => .error u
        | .ok d2 =>
          .ok { res := { conversation_id := env.conversation_id, response := text,
                         agent := "escalation", model := model_info.model,
                         qgpu_slice := model_info.qgpu_slice,
                         classification := classification,
                         events := router_result.events,
                         total_latency_ms := router_result.total_latency_ms + 50 },
                delivered := d2,
                history := history ++ [⟨"user", env.message⟩, ⟨"assistant", text⟩],
                hopResults := [] }
    else if jsonIsStr category "CLARIFY" then
      let model_info := settings.get_model_info "router"
      match callSink sink delivered
          (.response clarifyText "router" model_info.model model_info.qgpu_slice
            (some model_info.endpoint) 50) with
      | .error u => .error u
      | .ok d1 =>
        .ok { res := { conversation_id := env.conversation_id, response := clarifyText,
                       agent := "router", model := model_info.model,
                       qgpu_slice := model_info.qgpu_slice,
                       classification := classification,
                       events := router_result.events,
                       total_latency_ms := 50 },
              delivered := d1,
              history := history ++ [⟨"user", env.message⟩, ⟨"assistant", clarifyText⟩],
              hopResults := [] }
    else
      match agentMapGet category with
      | .error u => .error u
      | .ok specialistOpt =>
        let specialist := specialistOpt.getD order_tracker
        let router_info := settings.get_model_info "router"
        match (if router_info.qgpu_slice ≠ specialist.model_info.qgpu_slice then
                 callSink sink delivered
                   (.model_switch router_info.model router_info.qgpu_slice
                     specialist.model_info.model specialist.model_info.qgpu_slice)
               else .ok delivered) with
        | .error u => .error u
        | .ok d1 =>
          match agentProcess specialist (env.hopBehaviors 0) sink d1 with
          | .error u => .error u
          | .ok (specialist_result, d2) =>
            match rerouteLoop env sink settings.max_reroutes specialist specialist_result
                specialist_result.text (router_result.events ++ specialist_result.events)
                d2 [specialist_result] 1 with
            | .error u => .error u
            | .ok (specialist', specRes', response_text, all_events, d3, hopAcc) =>
              match callSink sink d3
                  (.response response_text specialist'.agent_type
                    specialist'.model_info.model specialist'.model_info.qgpu_slice
                    none specRes'.total_latency_ms) with
              | .error u => .error u
              | .ok d4 =>
                .ok { res := { conversation_id := env.conversation_id,
                               response := response_text,
                               agent := specialist'.agent_type,
                               model := specialist'.model_info.model,
                               qgpu_slice := specialist'.model_info.qgpu_slice,
                               classification := classification,
                               events := all_events,
                               total_latency_ms := router_result.total_latency_ms
                                 + specRes'.total_latency_ms },
                      delivered := d4,
                      history := history ++ [⟨"user", env.message⟩,
                                             ⟨"assistant", response_text⟩],
                      hopResults := hopAcc }

/-! ### The tool-call loop (`BaseAgent._llm_process`, `base.py` lines 84–215)

The external LLM server is a parameter: the response to the `iter`-th call of
one `_llm_process` invocation is `backend iter` (`Except.error e` models an
HTTP/transport exception with message `e`).  The tag handling
(`re.search(r"<tag>(.*?)</tag>", out, re.DOTALL)` and the corresponding
`re.sub`) is modelled on character lists.  Event emission is modelled as pure
accumulation (this covers runs with no live sink, or one that does not
raise; a raising sink aborts the turn exactly as in `process_message`). -/

/-- Python `s.strip()` (ASCII whitespace). -/
def pyStrip (s : String) : String :=
  ⟨((s.data.dropWhile isPyWs).reverse.dropWhile isPyWs).reverse⟩
where
  /-- Whitespace as stripped by Python `str.strip`. -/
  isPyWs (c : Char) : Bool :=
    c = ' ' ∨ c = '\t' ∨ c = '\n' ∨ c = '\r' ∨ c = Char.ofNat 11 ∨ c = Char.ofNat 12

/-- Leftmost occurrence of `pat` (nonempty) in the input: the characters
before it and the characters after it. -/
def splitFirst (pat : List Char) : List Char → Option (List Char × List Char)
  | [] => none
  | c :: rest =>
    if List.isPrefixOf pat (c :: rest) then some ([], List.drop pat.length (c :: rest))
    else
      match splitFirst pat rest with
      | some (pre, post) => some (c :: pre, post)
      | none => none

/-- `re.search(r"<tag>(.*?)</tag>", s, re.DOTALL)`: group 1 of the leftmost
match — the text between the first opening tag and the first closing tag
after it. -/
def searchTag (tag : String) (s : String) : Option String :=
  match splitFirst ("<" ++ tag ++ ">").data s.data with
  | none => none
  | some (_, rest) =>
    match splitFirst ("</" ++ tag ++ ">").data rest with
    | none => none
    | some (grp, _) => some ⟨grp⟩

/-- One pass of `re.sub(r"<tag>.*?</tag>", "", s)`: remove each
non-overlapping leftmost-shortest tagged block, scanning left to right. -/
def removeTagsAux (opn cls : List Char) : Nat → List Char → List Char
  | 0, l => l
  | fuel + 1, l =>
    match splitFirst opn l with
    | none => l
    | some (pre, rest) =>
      match splitFirst cls rest with
      | none => l
      | some (_, post) => pre ++ removeTagsAux opn cls fuel post

/-- `re.sub(r"<tag>.*?</tag>", "", s, flags=re.DOTALL)`. -/
def removeTags (tag : String) (s : String) : String :=
  ⟨removeTagsAux ("<" ++ tag ++ ">").data ("</" ++ tag ++ ">").data s.data.length s.data⟩

/-- The value of `output` after the thinking-block handling of one loop
iteration (`base.py` lines 139–143): stripped of every think block when a
think tag was matched, untouched otherwise. -/
def stripThink (out0 : String) : String :=
  match searchTag "think" out0 with
  | some _ => pyStrip (removeTags "think" out0)
  | none => out0

/-- One request-context message of the tool loop. -/
structure PyMsg where
  role : String
  content : String
  deriving DecidableEq, Repr

/-- One entry of `tool_calls_made`. -/
structure ToolRecord where
  tool : Json
  args : Json
  result : Json

/-- An event emitted inside `_llm_process`. -/
inductive LlmEvent where
  | thinking (text : String) : LlmEvent
  | tool_call (tool args : Json) : LlmEvent
  | tool_result (tool result : Json) (latency_ms : Nat) : LlmEvent
  | cost (input_tokens output_tokens : Nat) (model : String) (price : ℚ) : LlmEvent

/-- Environment of one `_llm_process` invocation: the backend's successive
raw outputs, the agent's tool registry (`tools_map`; the callables are the
out-of-scope business lookups, modelled as opaque total functions — the
runtime's `try/except` around them means a raising callable is observed as
its substituted error payload, which a total function models directly), the
measured per-call tool latencies, and the agent's display model name. -/
structure LlmEnv where
  backend : Nat → Except String String
  tools : String → Option (Json → Json)
  toolMs : Nat → Nat
  model_display : String

/-- `_execute_tool`: a registered (string) name runs the callable, anything
else yields the structured unknown-tool payload. -/
def execTool (tools : String → Option (Json → Json)) (name args : Json) : Json :=
  match name with
  | .str n =>
    match tools n with
    | some f => f args
    | none => .obj [("error", .str ("Unknown tool: " ++ n))]
  | _ => .obj [("error", .str ("Unknown tool: " ++ pyStrOf name))]

/-- The fixed apology text returned when the backend call raises. -/
def apologyText : String :=
  "I'm sorry, I'm having trouble processing your request right now. Please try again."

/-- The reroute directive of an output, when its tag payload parses as JSON
(`base.py` lines 146–156; a present-but-unparseable payload is passed
over). -/
def rerouteParsed (out : String) : Option Json :=
  match searchTag "reroute" out with
  | none => none
  | some g => Json.parse g

/-- The tool call of an output: a tool tag whose payload parses as JSON and
has a `name` key (`base.py` lines 159–192; a missing tag, unparseable
payload, or `KeyError` on `name` all fall through to the final-text path —
the model treats a non-dict payload like the `KeyError` case). -/
def toolStepOf (out : String) : Option (Json × Json) :=
  match searchTag "tool_call" out with
  | none => none
  | some g =>
    match Json.parse g with
    | none => none
    | some j =>
      match pyDictGet j "name" with
      | none => none
      | some nameVal => some (nameVal, (pyDictGet j "args").getD (.obj []))

/-- The dict returned by `_llm_process` (absent keys modelled by defaults:
`err` is the `error` key of the failure return). -/
structure LlmResult where
  text : String
  thinking : String
  tool_calls : List ToolRecord
  reroute : Option Json
  err : Option String
  events : List LlmEvent
  messages : List PyMsg

/-- Loop exit: emit the `cost` event (approximate token counts from content
lengths) and return the final response. -/
def llmFinish (env : LlmEnv) (msgs : List PyMsg) (thinking : String)
    (toolCalls : List ToolRecord) (events : List LlmEvent)
    (full_response : String) : LlmResult :=
  let input_tokens := (msgs.map fun m => m.content.length / 4).sum
  let output_tokens := full_response.length / 4
  { text := full_response, thinking := thinking, tool_calls := toolCalls,
    reroute := none, err := none,
    events := events ++ [.cost input_tokens output_tokens env.model_display
      (mkRat (Int.ofNat (input_tokens + output_tokens)) 1000000)],
    messages := msgs }

/-- The `for iteration in range(settings.max_tool_iterations)` loop.  `fuel`
counts the remaining iterations, `iter` the current iteration index;
`full_response` is initialized to the empty string and only ever assigned on
the final-response exit, so fuel exhaustion finishes with `""`. -/
def llmLoop (env : LlmEnv) : Nat → Nat → List PyMsg → String → List ToolRecord →
    List LlmEvent → LlmResult
  | 0, _, msgs, thinking, toolCalls, events =>
    llmFinish env msgs thinking toolCalls events ""
  | fuel + 1, iter, msgs, thinking, toolCalls, events =>
    match env.backend iter with
    | .error e =>
      { text := apologyText, thinking := "", tool_calls := [], reroute := none,
        err := some e, events := events, messages := msgs }
    | .ok out0 =>
      -- the three assignments of the `if think_match:` block
      let out1 := stripThink out0
      let thinking' :=
        match searchTag "think" out0 with
        | some g => pyStrip g
        | none => thinking
      let events' :=
        match searchTag "think" out0 with
        | some g => events ++ [.thinking (pyStrip g)]
        | none => events
      match rerouteParsed out1 with
      | some rj =>
        { text := pyStrip (removeTags "reroute" out1), thinking := thinking',
          tool_calls := [], reroute := some rj, err := none,
          events := events', messages := msgs }
      | none =>
        match toolStepOf out1 with
        | some (nameVal, args) =>
          let tool_result := execTool env.tools nameVal args
          llmLoop env fuel (iter + 1)
            (msgs ++ [⟨"assistant", out1⟩,
                      ⟨"user", "Tool result for " ++ pyStrOf nameVal ++ ":\n"
                                 ++ tool_result.dumps⟩])
            thinking'
            (toolCalls ++ [⟨nameVal, args, tool_result⟩])
            (events' ++ [.tool_call nameVal args,
                         .tool_result nameVal tool_result (env.toolMs iter)])
        | none => llmFinish env msgs thinking' toolCalls events' out1

/-- `_llm_process` given the assembled request context (system instruction,
trailing history window, current user turn — assembled by the caller). -/
def llmProcess (env : LlmEnv) (messages0 : List PyMsg) : LlmResult :=
  llmLoop env settings.max_tool_iterations 0 messages0 "" [] []

/-- How one loop iteration classifies one backend output (the decision
structure of the loop body, as a function of the raw output alone). -/
inductive LlmStep where
  | backendFail (e : String) : LlmStep
  | rerouteStep (r : Json) : LlmStep
  | toolStep (name args : Json) : LlmStep
  | finalStep (text : String) : LlmStep

/-- Classify one backend response the way the loop body does. -/
def stepKindOf (o : Except String String) : LlmStep :=
  match o with
  | .error e => .backendFail e
  | .ok out0 =>
    match rerouteParsed (stripThink out0) with
    | some rj => .rerouteStep rj
    | none =>
      match toolStepOf (stripThink out0) with
      | some (n, a) => .toolStep n a
      | none => .finalStep (stripThink out0)

/-- Whether a step is a successfully parsed tool call. -/
def LlmStep.isTool : LlmStep → Bool
  | .toolStep _ _ => true
  | _ => false

/-! ### Basic lemmas about emission and `BaseAgent.process` -/

/-- A placeholder agent result (used only as the default of `getLastD`). -/
def dummyAgentResult : AgentResult :=
  { text := "", thinking := "", classification := none, reroute := none,
    total_latency_ms := 0, agent := "", model := "", qgpu_slice := "", events := [] }

theorem callSink_ok_some {f : Sink} {d d' : List Event} {e : Event}
    (h : callSink (some f) d e = .ok d') : d' = d ++ [e] := by
  simp only [callSink] at h
  split at h
  · exact (Except.ok.inj h).symm
  · exact Except.noConfusion h

theorem emitLocal_ok_events {sink : Option Sink} {d evs d' evs' : List Event} {e : Event}
    (h : emitLocal sink d evs e = .ok (d', evs')) : evs' = evs ++ [e] := by
  simp only [emitLocal] at h
  split at h
  · exact Except.noConfusion h
  · cases h; rfl

theorem emitLocal_ok_some {f : Sink} {d evs d' evs' : List Event} {e : Event}
    (h : emitLocal (some f) d evs e = .ok (d', evs')) :
    d' = d ++ [e] ∧ evs' = evs ++ [e] := by
  simp only [emitLocal] at h
  split at h
  · exact Except.noConfusion h
  · next hc =>
    cases h
    exact ⟨callSink_ok_some hc, rfl⟩

theorem emitAll_ok_events {sink : Option Sink} :
    ∀ {es : List Event} {d evs d' evs' : List Event},
      emitAll sink d evs es = .ok (d', evs') → evs' = evs ++ es := by
  intro es
  induction es with
  | nil => intro d evs d' evs' h; cases h; simp
  | cons e rest ih =>
    intro d evs d' evs' h
    simp only [emitAll] at h
    split at h
    · exact Except.noConfusion h
    · next dmid emid hl =>
      rw [ih h, emitLocal_ok_events hl]
      simp

theorem emitAll_ok_some {f : Sink} :
    ∀ {es : List Event} {d evs d' evs' : List Event},
      emitAll (some f) d evs es = .ok (d', evs') → d' = d ++ es := by
  intro es
  induction es with
  | nil => intro d evs d' evs' h; cases h; simp
  | cons e rest ih =>
    intro d evs d' evs' h
    simp only [emitAll] at h
    split at h
    · exact Except.noConfusion h
    · next dmid emid hl =>
      obtain ⟨hd, -⟩ := emitLocal_ok_some hl
      rw [ih h, hd]
      simp

/-- The result `BaseAgent.process` assembles from a behavior, when no sink
failure interrupts it. -/
def mkAgentResult (a : Agent) (b : HopBehavior) : AgentResult :=
  { text := b.text, thinking := b.thinking, classification := b.classification,
    reroute := b.reroute, total_latency_ms := b.latency, agent := a.agent_type,
    model := a.model_info.model, qgpu_slice := a.model_info.qgpu_slice,
    events := .agent_start a.agent_type a.model_info :: b.innerEvents }

theorem agentProcess_ok {a : Agent} {b : HopBehavior} {sink : Option Sink}
    {d : List Event} {r : AgentResult} {d' : List Event}
    (h : agentProcess a b sink d = .ok (r, d')) : r = mkAgentResult a b := by
  simp only [agentProcess] at h
  split at h
  · exact Except.noConfusion h
  · next d1 evs1 hl =>
    split at h
    · exact Except.noConfusion h
    · next d2 evs2 ha =>
      cases h
      have h1 := emitLocal_ok_events hl
      have h2 := emitAll_ok_events ha
      rw [h1] at h2
      simp at h2
      simp [mkAgentResult, h2]

theorem agentProcess_ok_some {a : Agent} {b : HopBehavior} {f : Sink}
    {d : List Event} {r : AgentResult} {d' : List Event}
    (h : agentProcess a b (some f) d = .ok (r, d')) : d' = d ++ r.events := by
  have hr := agentProcess_ok h
  simp only [agentProcess] at h
  split at h
  · exact Except.noConfusion h
  · next d1 evs1 hl =>
    split at h
    · exact Except.noConfusion h
    · next d2 evs2 ha =>
      cases h
      obtain ⟨hd1, -⟩ := emitLocal_ok_some hl
      have hd2 := emitAll_ok_some ha
      subst hd1 hd2
      rw [hr]
      simp [mkAgentResult]

/-! ### Lemmas about the reroute loop -/

theorem rerouteLoop_ok (env : TurnEnv) (sink : Option Sink) :
    ∀ (fuel : Nat) (sp : Agent) (r : AgentResult) (txt : String)
      (evs d : List Event) (hops : List AgentResult) (idx : Nat)
      {sp' : Agent} {r' : AgentResult} {txt' : String}
      {evs' d' : List Event} {hops' : List AgentResult},
      rerouteLoop env sink fuel sp r txt evs d hops idx
        = .ok (sp', r', txt', evs', d', hops') →
      hops'.length ≤ hops.length + fuel ∧
      (hops.getLast? = some r → txt = r.text →
        hops'.getLast? = some r' ∧ txt' = r'.text) := by
  intro fuel
  induction fuel with
  | zero =>
    intro sp r txt evs d hops idx sp' r' txt' evs' d' hops' h
    simp only [rerouteLoop] at h
    cases h
    exact ⟨Nat.le_refl _, fun h1 h2 => ⟨h1, h2⟩⟩
  | succ n ih =>
    intro sp r txt evs d hops idx sp' r' txt' evs' d' hops' h
    simp only [rerouteLoop] at h
    split at h
    · cases h; exact ⟨by omega, fun h1 h2 => ⟨h1, h2⟩⟩
    · split at h
      · split at h
        · exact Except.noConfusion h
        · split at h
          · cases h; exact ⟨by omega, fun h1 h2 => ⟨h1, h2⟩⟩
          · next target _ =>
            split at h
            · exact Except.noConfusion h
            · split at h
              · exact Except.noConfusion h
              · split at h
                · exact Except.noConfusion h
                · next r2 d3 hap =>
                  obtain ⟨hlen, hlast⟩ := ih target r2 r2.text _ d3 (hops ++ [r2]) (idx + 1) h
                  constructor
                  · simp only [List.length_append, List.length_singleton] at hlen
                    omega
                  · intro h1 h2
                    exact hlast (List.getLast?_concat _) rfl
      · cases h; exact ⟨by omega, fun h1 h2 => ⟨h1, h2⟩⟩

theorem rerouteLoop_ok_sublist (env : TurnEnv) (f : Sink) :
    ∀ (fuel : Nat) (sp : Agent) (r : AgentResult) (txt : String)
      (evs d : List Event) (hops : List AgentResult) (idx : Nat)
      {sp' : Agent} {r' : AgentResult} {txt' : String}
      {evs' d' : List Event} {hops' : List AgentResult},
      rerouteLoop env (some f) fuel sp r txt evs d hops idx
        = .ok (sp', r', txt', evs', d', hops') →
      ∃ E D, evs' = evs ++ E ∧ d' = d ++ D ∧ E.Sublist D := by
  intro fuel
  induction fuel with
  | zero =>
    intro sp r txt evs d hops idx sp' r' txt' evs' d' hops' h
    simp only [rerouteLoop] at h
    cases h
    exact ⟨[], [], by simp, by simp, List.Sublist.refl _⟩
  | succ n ih =>
    intro sp r txt evs d hops idx sp' r' txt' evs' d' hops' h
    simp only [rerouteLoop] at h
    split at h
    · cases h; exact ⟨[], [], by simp, by simp, List.Sublist.refl _⟩
    · split at h
      · split at h
        · exact Except.noConfusion h
        · split at h
          · cases h; exact ⟨[], [], by simp, by simp, List.Sublist.refl _⟩
          · next target _ =>
            split at h
            · exact Except.noConfusion h
            · next d1 hc1 =>
              split at h
              · exact Except.noConfusion h
              · next d2 hc2 =>
                split at h
                · exact Except.noConfusion h
                · next r2 d3 hap =>
                  obtain ⟨E', D', hE, hD, hS⟩ :=
                    ih target r2 r2.text _ d3 (hops ++ [r2]) (idx + 1) h
                  obtain ⟨e1, hd1⟩ : ∃ e1, d1 = d ++ [e1] := ⟨_, callSink_ok_some hc1⟩
                  have hd3 : d3 = d2 ++ r2.events := agentProcess_ok_some hap
                  have hstep : (r2.events ++ E').Sublist (r2.events ++ D') :=
                    List.Sublist.append (List.Sublist.refl _) hS
                  have hd2 : ∃ M, d2 = d1 ++ M := by
                    split at hc2
                    · exact ⟨_, callSink_ok_some hc2⟩
                    · exact ⟨[], by simpa using (Except.ok.inj hc2).symm⟩
                  obtain ⟨M, hM⟩ := hd2
                  refine ⟨r2.events ++ E', [e1] ++ (M ++ (r2.events ++ D')), ?_, ?_, ?_⟩
                  · rw [hE]; simp
                  · rw [hD, hd3, hM, hd1]; simp
                  · exact hstep.trans ((List.sublist_append_right M _).trans
                      (List.sublist_append_right _ _))
      · cases h; exact ⟨[], [], by simp, by simp, List.Sublist.refl _⟩

/-! ### Lemmas about the tool-call loop -/

theorem llmLoop_all_tool (env : LlmEnv) :
    ∀ (fuel iter : Nat) (msgs : List PyMsg) (thinking : String)
      (toolCalls : List ToolRecord) (events : List LlmEvent),
      (∀ i, iter ≤ i → i < iter + fuel → (stepKindOf (env.backend i)).isTool = true) →
      (llmLoop env fuel iter msgs thinking toolCalls events).text = ""
        ∧ (llmLoop env fuel iter msgs thinking toolCalls events).err = none := by
  intro fuel
  induction fuel with
  | zero =>
    intro iter msgs thinking toolCalls events _
    simp [llmLoop, llmFinish]
  | succ n ih =>
    intro iter msgs thinking toolCalls events h
    have hstep := h iter (Nat.le_refl _) (by omega)
    simp only [llmLoop]
    split
    · next e hb =>
      simp [stepKindOf, hb, LlmStep.isTool] at hstep
    · next out0 hb =>
      rw [hb] at hstep
      split
      · next rj hre =>
        simp only [stepKindOf, hre, LlmStep.isTool] at hstep
        exact Bool.noConfusion hstep
      · next hre =>
        split
        · next nameVal args htool =>
          exact ih (iter + 1) _ _ _ _ (fun i h1 h2 => h i (by omega) (by omega))
        · next htool =>
          simp only [stepKindOf, hre, htool, LlmStep.isTool] at hstep
          exact Bool.noConfusion hstep

/-! ### Accessor and extraction lemmas -/

theorem jsonIsStr_unique {j : Json} {a b : String} (ha : jsonIsStr j a = true)
    (hb : jsonIsStr j b = true) : a = b := by
  cases j <;> simp [jsonIsStr] at ha hb
  rw [← ha, ← hb]

theorem jsonNumD_mkClassification (c : String) (q : ℚ) (i : Bool) :
    jsonNumD (mkClassification c q i) "confidence" 0 = q := by
  simp [mkClassification, jsonNumD, pyDictGet, lookupLast]

theorem jsonStrD_mkClassification (c : String) (q : ℚ) (i : Bool) (d : String) :
    jsonStrD (mkClassification c q i) "category" d = c := by
  simp [mkClassification, jsonStrD, pyDictGet, lookupLast]

theorem takeUntilRBrace_append {body : List Char}
    (hbody : body.all (fun c => c ≠ '}') = true) (post : List Char) :
    takeUntilRBrace (body ++ '}' :: post) = some body := by
  induction body with
  | nil => simp [takeUntilRBrace]
  | cons c rest ih =>
    simp only [List.all_cons, Bool.and_eq_true, decide_eq_true_eq] at hbody
    simp [takeUntilRBrace, hbody.1, ih hbody.2]

theorem firstFlatSpan_skip {pre : List Char}
    (hpre : pre.all (fun c => c ≠ '{') = true) (rest : List Char) :
    firstFlatSpan (pre ++ rest) = firstFlatSpan rest := by
  induction pre with
  | nil => simp
  | cons c p ih =>
    simp only [List.all_cons, Bool.and_eq_true, decide_eq_true_eq] at hpre
    simpa [firstFlatSpan, hpre.1] using ih hpre.2

theorem firstFlatSpan_hit {body : List Char} (h0 : body ≠ [])
    (hbody : body.all (fun c => c ≠ '}') = true) (post : List Char) :
    firstFlatSpan ('{' :: (body ++ '}' :: post)) = some ('{' :: (body ++ ['}'])) := by
  cases body with
  | nil => exact absurd rfl h0
  | cons c rest =>
    rw [firstFlatSpan.eq_def]
    simp only [reduceIte]
    rw [takeUntilRBrace_append hbody]

theorem extractJsonSpan_embedded (pre body post : String)
    (hpre : pre.data.all (fun c => c ≠ '{') = true) (h0 : body.data ≠ [])
    (hbody : body.data.all (fun c => c ≠ '}') = true) :
    extractJsonSpan (pre ++ "\x7b" ++ body ++ "\x7d" ++ post)
      = some ("\x7b" ++ body ++ "\x7d") := by
  unfold extractJsonSpan
  have hd : (pre ++ "\x7b" ++ body ++ "\x7d" ++ post).data
      = pre.data ++ ('{' :: (body.data ++ '}' :: post.data)) := by
    simp [String.data_append]
  rw [hd, firstFlatSpan_skip hpre, firstFlatSpan_hit h0 hbody]
  have hspan : ("\x7b" ++ body ++ "\x7d").data = '{' :: (body.data ++ ['}']) := by
    simp [String.data_append]
  simp only [Option.map_some']
  exact congrArg some (String.ext hspan.symm)

/-! ### The claims -/

/-- C1 (amended): in the deterministic keyword path every classification
with confidence below 0.65 is already CLARIFY — the fixed branch confidences
(0.98, 0.97/0.93, 0.96/0.88, 0.93/0.91, 0.75) all sit above 0.65 and the only
sub-threshold output is the CLARIFY default at 0.50.  (No theorem of this
shape holds for the parsed-LLM-JSON path: `process_message` branches on the
parsed category without ever reading the confidence, see the
counterexample.) -/
theorem C1_low_confidence_is_clarify_in_mock_path (message : String) (has_image : Bool)
    (h : jsonNumD (classify_mock message has_image) "confidence" 0 < mkRat 65 100) :
    jsonStrD (classify_mock message has_image) "category" "" = "CLARIFY" := by
  unfold classify_mock at h ⊢
  by_cases h1 : anyKeyword escalateKeywords (pyLower message) = true
  · rw [if_pos h1, jsonNumD_mkClassification] at h
    exact absurd h (by decide)
  · rw [if_neg h1] at h ⊢
    by_cases h2 : anyKeyword returnKeywords (pyLower message) = true
    · rw [if_pos h2, jsonNumD_mkClassification] at h
      cases has_image <;> exact absurd h (by decide)
    · rw [if_neg h2] at h ⊢
      by_cases h3 : anyKeyword productKeywords (pyLower message) = true
      · rw [if_pos h3, jsonNumD_mkClassification] at h
        cases has_image <;> exact absurd h (by decide)
      · rw [if_neg h3] at h ⊢
        by_cases h4 : anyKeyword orderKeywords (pyLower message) = true
        · rw [if_pos h4, jsonNumD_mkClassification] at h
          cases has_image <;> exact absurd h (by decide)
        · rw [if_neg h4] at h ⊢
          by_cases h5 : has_image = true
          · rw [if_pos h5, jsonNumD_mkClassification] at h
            exact absurd h (by decide)
          · rw [if_neg h5]
            exact jsonStrD_mkClassification _ _ _ _

/-- C1 witness: a keyword-free message gets the CLARIFY default at
confidence 0.50 < 0.65, instantiating the amended theorem. -/
theorem C1_low_confidence_is_clarify_in_mock_path_witness :
    jsonNumD (classify_mock "hello there" false) "confidence" 0 < mkRat 65 100 ∧
    jsonStrD (classify_mock "hello there" false) "category" "" = "CLARIFY" :=
  ⟨by decide, C1_low_confidence_is_clarify_in_mock_path "hello there" false (by decide)⟩

/-- Router behavior for the C1 counterexample: the LLM path (no
`classification` key) returning a low-confidence non-CLARIFY payload. -/
def c1RouterBehavior : HopBehavior :=
  { text := "\x7b\"category\": \"ORDER_STATUS\", \"confidence\": 0.3\x7d",
    thinking := "", classification := none, reroute := none,
    innerEvents := [], latency := 40 }

/-- Specialist behavior for the C1 counterexample. -/
def c1HopBehavior : HopBehavior :=
  { text := "your order is on its way", thinking := "", classification := none,
    reroute := none, innerEvents := [], latency := 100 }

/-- Turn environment for the C1 counterexample. -/
def c1Env : TurnEnv :=
  { message := "hmm", customer_id := "C-1001", conversation_id := "c1", image := none,
    routerBehavior := c1RouterBehavior, hopBehaviors := fun _ => c1HopBehavior,
    escRef := "AB12CD" }

/-- C1 counterexample: a turn whose router output parses (LLM path) to
category ORDER_STATUS with confidence 0.3 < 0.65 is dispatched to the order
tracker — the orchestrator performs no downgrade to CLARIFY, refuting the
claim for the parsed-LLM-JSON source. -/
theorem C1_counterexample :
    (process_message c1Env none []).toOption.map
        (fun o => (jsonStrD o.res.classification "category" "",
                   jsonNumD o.res.classification "confidence" 0,
                   o.res.agent))
      = some ("ORDER_STATUS", mkRat 3 10, "order_tracker")
    ∧ mkRat 3 10 < mkRat 65 100 ∧ "ORDER_STATUS" ≠ "CLARIFY" :=
  ⟨by decide, by decide, by decide⟩

/-- C8: a message containing any escalation keyword is classified ESCALATE
at confidence 0.98 by the deterministic keyword classifier — the escalation
check runs first, so co-occurring return/order/product keywords are never
consulted. -/
theorem C8_escalation_keywords_outrank (message : String) (has_image : Bool)
    (h : anyKeyword escalateKeywords (pyLower message) = true) :
    classify_mock message has_image
      = mkClassification "ESCALATE" (mkRat 98 100) has_image := by
  unfold classify_mock
  rw [if_pos h]

/-- The co-occurrence message of the C8 witness. -/
def c8msg : String :=
  "I am filing a complaint about my broken order, which laptop should I buy"

/-- C8 witness: a message hitting escalation, return, order and product
keywords simultaneously still classifies ESCALATE at 0.98. -/
theorem C8_escalation_keywords_outrank_witness :
    anyKeyword escalateKeywords (pyLower c8msg) = true ∧
    anyKeyword returnKeywords (pyLower c8msg) = true ∧
    anyKeyword orderKeywords (pyLower c8msg) = true ∧
    anyKeyword productKeywords (pyLower c8msg) = true ∧
    classify_mock c8msg false = mkClassification "ESCALATE" (mkRat 98 100) false :=
  ⟨by decide, by decide, by decide, by decide,
   C8_escalation_keywords_outrank c8msg false (by decide)⟩

/-- C7 (amended): `parse_classification` is total and degrades to the
default CLARIFY classification (confidence 0.0): a FLAT JSON payload (one
whose body holds no closing brace) embedded in noise whose preceding text has
no opening brace is recovered, and when the extracted flat span does not
parse (or no span exists) the default is returned.  The "first balanced JSON
object" reading fails for nested payloads — see the counterexample. -/
theorem C7_flat_span_recovery_and_default
    (pre body post : String) (j : Json) (r1 r2 : AgentResult)
    (h1c : r1.classification = none)
    (h1t : r1.text = pre ++ "\x7b" ++ body ++ "\x7d" ++ post)
    (hpre : pre.data.all (fun c => c ≠ '{') = true)
    (h0 : body.data ≠ [])
    (hbody : body.data.all (fun c => c ≠ '}') = true)
    (hj : Json.parse ("\x7b" ++ body ++ "\x7d") = some j)
    (h2c : r2.classification = none)
    (h2 : (extractJsonSpan r2.text).bind Json.parse = none) :
    parse_classification r1 = j ∧ parse_classification r2 = defaultClassification := by
  constructor
  · simp only [parse_classification, h1c, h1t,
               extractJsonSpan_embedded pre body post hpre h0 hbody, hj]
  · simp only [parse_classification, h2c]
    cases hs : extractJsonSpan r2.text with
    | none => rfl
    | some s =>
      rw [hs] at h2
      have hp : Json.parse s = none := h2
      simp [hp]

/-- The flat payload body of the C7 witness. -/
def c7body : String := "\"category\": \"RETURNS\", \"confidence\": 0.93"

/-- The parsed flat payload of the C7 witness. -/
def c7j : Json := (Json.parse ("\x7b" ++ c7body ++ "\x7d")).getD .null

/-- Router result with a flat payload in noisy text (C7 witness). -/
def c7r1 : AgentResult :=
  { dummyAgentResult with text := "noise " ++ "\x7b" ++ c7body ++ "\x7d" ++ " tail" }

/-- Router result with no JSON at all (C7 witness). -/
def c7r2 : AgentResult :=
  { dummyAgentResult with text := "no json here at all" }

/-- C7 witness: the flat payload in noise is recovered and the JSON-free
text degrades to the default CLARIFY classification. -/
theorem C7_flat_span_recovery_and_default_witness :
    (c7r1.classification = none ∧ (extractJsonSpan c7r2.text).bind Json.parse = none) ∧
    parse_classification c7r1 = c7j ∧ parse_classification c7r2 = defaultClassification :=
  ⟨⟨rfl, rfl⟩,
   C7_flat_span_recovery_and_default "noise " c7body " tail" c7j c7r1 c7r2
     rfl rfl (by decide) (by decide) (by decide) rfl rfl rfl⟩

/-- Router text whose first balanced JSON object is nested (C7
counterexample). -/
def c7nestedText : String :=
  "noise \x7b\"category\": \"ORDER_STATUS\", \"confidence\": 0.9, \"meta\": \x7b\"a\": 1\x7d\x7d end"

/-- Router result carrying the nested payload (C7 counterexample). -/
def c7r3 : AgentResult := { dummyAgentResult with text := c7nestedText }

/-- C7 counterexample: on a nested classification payload the first balanced
JSON object exists and has category ORDER_STATUS, but `parse_classification`
returns the default CLARIFY classification — the regex `\x7b[^\x7d]+\x7d`
stops at the first closing brace, so the claim's "first balanced JSON
object" reading is false. -/
theorem C7_counterexample :
    parse_classification c7r3 = defaultClassification ∧
    (spec_firstBalancedJson c7nestedText).map (fun j => jsonStrD j "category" "")
      = some "ORDER_STATUS" ∧
    parse_classification c7r3 ≠ (spec_firstBalancedJson c7nestedText).getD .null := by
  refine ⟨rfl, by decide, fun hcontra => ?_⟩
  exact absurd (congrArg (fun j => jsonStrD j "category" "") hcontra) (by decide)

/-- A placeholder turn outcome (used only as the default of `Option.getD`
when naming concrete run results). -/
def dummyTurnOut : TurnOut :=
  { res := { conversation_id := "", response := "", agent := "", model := "",
             qgpu_slice := "", classification := .null, events := [],
             total_latency_ms := 0 },
    delivered := [], history := [], hopResults := [] }

/-- C6: every completed turn — ESCALATE, CLARIFY or dispatched with any
number of reroute hops — stores exactly two new history entries, the user
message then the assistant response, appended once at end of turn (each
branch of `process_message` appends the pair exactly once; the reroute loop
never touches the history). -/
theorem C6_history_grows_by_exactly_two (env : TurnEnv) (sink : Option Sink)
    (hist : List Message) (out : TurnOut)
    (h : process_message env sink hist = .ok out) :
    out.history = hist ++ [⟨"user", env.message⟩, ⟨"assistant", out.res.response⟩] := by
  simp only [process_message] at h
  split at h
  · exact Except.noConfusion h
  · split at h
    · split at h
      · exact Except.noConfusion h
      · split at h
        · exact Except.noConfusion h
        · cases h; simp
    · split at h
      · split at h
        · exact Except.noConfusion h
        · cases h; simp
      · split at h
        · exact Except.noConfusion h
        · split at h
          · exact Except.noConfusion h
          · split at h
            · exact Except.noConfusion h
            · split at h
              · exact Except.noConfusion h
              · split at h
                · exact Except.noConfusion h
                · cases h; simp

/-- Router behavior of the C6 witness turn (mock classification
ORDER_STATUS). -/
def c6RouterBehavior : HopBehavior :=
  { text := "", thinking := "", classification := some (mkClassification "ORDER_STATUS" (mkRat 93 100) false),
    reroute := none, innerEvents := [], latency := 40 }

/-- Specialist behavior of the C6 witness turn. -/
def c6HopBehavior : HopBehavior :=
  { text := "it ships tomorrow", thinking := "", classification := none,
    reroute := none, innerEvents := [], latency := 120 }

/-- Turn environment of the C6 witness. -/
def c6Env : TurnEnv :=
  { message := "where is my order", customer_id := "C-1001", conversation_id := "c6",
    image := none, routerBehavior := c6RouterBehavior,
    hopBehaviors := fun _ => c6HopBehavior, escRef := "AB12CD" }

/-- The C6 witness run outcome. -/
def c6out : TurnOut := (process_message c6Env none []).toOption.getD dummyTurnOut

/-- C6 witness: a concrete dispatched turn appends exactly the user and
assistant pair to an empty history. -/
theorem C6_history_grows_by_exactly_two_witness :
    process_message c6Env none [] = .ok c6out ∧
    c6out.history = [] ++ [⟨"user", c6Env.message⟩, ⟨"assistant", c6out.res.response⟩] :=
  ⟨rfl, C6_history_grows_by_exactly_two c6Env none [] c6out rfl⟩

/-- Whatever branch returned, a CLARIFY-categorized classification in the
result means the CLARIFY branch ran, whose total latency is the literal 50. -/
theorem processMessage_clarify_total (env : TurnEnv) (sink : Option Sink)
    (hist : List Message) (out : TurnOut)
    (h : process_message env sink hist = .ok out)
    (hc : jsonIsStr ((pyDictGet out.res.classification "category").getD (.str "CLARIFY"))
        "CLARIFY" = true) :
    out.res.total_latency_ms = 50 := by
  simp only [process_message] at h
  split at h
  · exact Except.noConfusion h
  · split at h
    · next hesc =>
      split at h
      · exact Except.noConfusion h
      · split at h
        · exact Except.noConfusion h
        · cases h
          exact absurd (jsonIsStr_unique hesc hc) (by decide)
    · next hesc =>
      split at h
      · next hcl =>
        split at h
        · exact Except.noConfusion h
        · cases h; rfl
      · next hcl =>
        split at h
        · exact Except.noConfusion h
        · split at h
          · exact Except.noConfusion h
          · split at h
            · exact Except.noConfusion h
            · split at h
              · exact Except.noConfusion h
              · split at h
                · exact Except.noConfusion h
                · cases h
                  exact absurd hc hcl

/-- An ESCALATE-categorized classification in the result means the ESCALATE
branch ran, whose total latency is the router's measured latency plus 50. -/
theorem processMessage_escalate_total (env : TurnEnv) (sink : Option Sink)
    (hist : List Message) (out : TurnOut)
    (h : process_message env sink hist = .ok out)
    (hc : jsonIsStr ((pyDictGet out.res.classification "category").getD (.str "CLARIFY"))
        "ESCALATE" = true) :
    out.res.total_latency_ms = env.routerBehavior.latency + 50 := by
  simp only [process_message] at h
  split at h
  · exact Except.noConfusion h
  · next router_result delivered hap =>
    split at h
    · next hesc =>
      split at h
      · exact Except.noConfusion h
      · split at h
        · exact Except.noConfusion h
        · cases h
          have hr := agentProcess_ok hap
          simp only [hr, mkAgentResult]
    · next hesc =>
      split at h
      · next hcl =>
        split at h
        · exact Except.noConfusion h
        · cases h
          exact absurd (jsonIsStr_unique hcl hc) (by decide)
      · next hcl =>
        split at h
        · exact Except.noConfusion h
        · split at h
          · exact Except.noConfusion h
          · split at h
            · exact Except.noConfusion h
            · split at h
              · exact Except.noConfusion h
              · split at h
                · exact Except.noConfusion h
                · cases h
                  exact absurd hc hesc

/-- C10: a turn whose returned classification category is CLARIFY reports
the constant total latency 50 regardless of the router's measured latency,
while an ESCALATE turn reports the router's measured latency plus 50. -/
theorem C10_clarify_constant_escalate_router_plus_50
    (envC envE : TurnEnv) (sinkC sinkE : Option Sink)
    (histC histE : List Message) (outC outE : TurnOut)
    (hC : process_message envC sinkC histC = .ok outC)
    (hCc : jsonIsStr ((pyDictGet outC.res.classification "category").getD (.str "CLARIFY"))
        "CLARIFY" = true)
    (hE : process_message envE sinkE histE = .ok outE)
    (hEc : jsonIsStr ((pyDictGet outE.res.classification "category").getD (.str "CLARIFY"))
        "ESCALATE" = true) :
    outC.res.total_latency_ms = 50 ∧
    outE.res.total_latency_ms = envE.routerBehavior.latency + 50 :=
  ⟨processMessage_clarify_total envC sinkC histC outC hC hCc,
   processMessage_escalate_total envE sinkE histE outE hE hEc⟩

/-- Router behavior of the C10 CLARIFY witness turn: measured latency 47,
which the CLARIFY branch ignores. -/
def c10ClarifyRouter : HopBehavior :=
  { text := "", thinking := "", classification := some (mkClassification "CLARIFY" (mkRat 50 100) false),
    reroute := none, innerEvents := [], latency := 47 }

/-- Router behavior of the C10 ESCALATE witness turn. -/
def c10EscalateRouter : HopBehavior :=
  { text := "", thinking := "", classification := some (mkClassification "ESCALATE" (mkRat 98 100) false),
    reroute := none, innerEvents := [], latency := 47 }

/-- Turn environment of the C10 CLARIFY witness. -/
def c10EnvC : TurnEnv :=
  { message := "hello", customer_id := "C-1001", conversation_id := "c10c",
    image := none, routerBehavior := c10ClarifyRouter,
    hopBehaviors := fun _ => c6HopBehavior, escRef := "AB12CD" }

/-- Turn environment of the C10 ESCALATE witness. -/
def c10EnvE : TurnEnv :=
  { message := "I am filing a complaint", customer_id := "C-1003",
    conversation_id := "c10e", image := none, routerBehavior := c10EscalateRouter,
    hopBehaviors := fun _ => c6HopBehavior, escRef := "AB12CD" }

/-- The C10 CLARIFY witness outcome. -/
def c10outC : TurnOut := (process_message c10EnvC none []).toOption.getD dummyTurnOut

/-- The C10 ESCALATE witness outcome. -/
def c10outE : TurnOut := (process_message c10EnvE none []).toOption.getD dummyTurnOut

/-- C10 witness: with router latency 47, the CLARIFY turn reports 50 and the
ESCALATE turn reports 97. -/
theorem C10_clarify_constant_escalate_router_plus_50_witness :
    (process_message c10EnvC none [] = .ok c10outC ∧
     process_message c10EnvE none [] = .ok c10outE) ∧
    c10outC.res.total_latency_ms = 50 ∧
    c10outE.res.total_latency_ms = c10EnvE.routerBehavior.latency + 50 :=
  ⟨⟨rfl, rfl⟩,
   C10_clarify_constant_escalate_router_plus_50 c10EnvC c10EnvE none none [] []
     c10outC c10outE rfl (by decide) rfl (by decide)⟩

/-- C2 (amended): for a dispatched turn the returned `total_latency_ms` is
the router's measured latency plus the latency of the LAST executed
specialist hop only — the latencies of earlier hops in a rerouted turn are
not accumulated (`main.py` line 285 adds only the final
`specialist_result`). -/
theorem C2_total_is_router_plus_last_hop (env : TurnEnv) (sink : Option Sink)
    (hist : List Message) (out : TurnOut)
    (h : process_message env sink hist = .ok out)
    (hne : out.hopResults ≠ []) :
    out.res.total_latency_ms
      = env.routerBehavior.latency
        + (out.hopResults.getLastD dummyAgentResult).total_latency_ms := by
  simp only [process_message] at h
  split at h
  · exact Except.noConfusion h
  · next router_result delivered hap =>
    split at h
    · split at h
      · exact Except.noConfusion h
      · split at h
        · exact Except.noConfusion h
        · cases h; exact absurd rfl hne
    · split at h
      · split at h
        · exact Except.noConfusion h
        · cases h; exact absurd rfl hne
      · split at h
        · exact Except.noConfusion h
        · split at h
          · exact Except.noConfusion h
          · split at h
            · exact Except.noConfusion h
            · next spec0 d2 hap2 =>
              split at h
              · exact Except.noConfusion h
              · next sp' r' txt' evs' d3 hops hloop =>
                split at h
                · exact Except.noConfusion h
                · cases h
                  have h1 := agentProcess_ok hap
                  have h2 := (rerouteLoop_ok env sink settings.max_reroutes _ _ _ _ _ _ _
                    hloop).2 (by simp) rfl
                  rw [h1]
                  simp only [mkAgentResult, List.getLastD_eq_getLast?, h2.1, Option.getD_some]

/-- The reroute directive of the C2 run. -/
def c2Directive : Json :=
  .obj [("agent", .str "returns"), ("reason", .str "customer wants to cancel")]

/-- Router behavior of the C2 run: measured latency 40. -/
def c2Router : HopBehavior :=
  { text := "", thinking := "",
    classification := some (mkClassification "ORDER_STATUS" (mkRat 93 100) false),
    reroute := none, innerEvents := [], latency := 40 }

/-- First specialist hop of the C2 run: hands off to the returns agent,
measured latency 100. -/
def c2Hop0 : HopBehavior :=
  { text := "", thinking := "", classification := none,
    reroute := some c2Directive, innerEvents := [], latency := 100 }

/-- Second specialist hop of the C2 run: final answer, measured latency
200. -/
def c2Hop1 : HopBehavior :=
  { text := "refund processed", thinking := "", classification := none,
    reroute := none, innerEvents := [], latency := 200 }

/-- Turn environment of the C2 run (one reroute hop). -/
def c2Env : TurnEnv :=
  { message := "actually cancel my order", customer_id := "C-1001",
    conversation_id := "c2", image := none, routerBehavior := c2Router,
    hopBehaviors := fun k => if k = 0 then c2Hop0 else c2Hop1, escRef := "AB12CD" }

/-- The C2 run outcome. -/
def c2out : TurnOut := (process_message c2Env none []).toOption.getD dummyTurnOut

/-- C2 counterexample: a turn with two executed hops (latencies 100 and 200)
and router latency 40 reports 240 = 40 + 200, not 40 + (100 + 200) — the sum
over hops claimed by the spec. -/
theorem C2_counterexample :
    (process_message c2Env none []).toOption.map
        (fun o => (o.res.total_latency_ms, o.hopResults.map AgentResult.total_latency_ms))
      = some (240, [100, 200])
    ∧ c2Env.routerBehavior.latency = 40 ∧ 240 ≠ 40 + (100 + 200) :=
  ⟨by decide, rfl, by decide⟩

/-- C2 witness: on the two-hop run, the amended theorem instantiates to
240 = 40 + 200. -/
theorem C2_total_is_router_plus_last_hop_witness :
    process_message c2Env none [] = .ok c2out ∧
    c2out.hopResults.length = 2 ∧
    c2out.res.total_latency_ms
      = c2Env.routerBehavior.latency
        + (c2out.hopResults.getLastD dummyAgentResult).total_latency_ms :=
  ⟨rfl, by decide,
   C2_total_is_router_plus_last_hop c2Env none [] c2out rfl
     (fun hemp => absurd (congrArg List.length hemp) (by decide))⟩

/-- C9: the reroute loop executes a target agent at most
`settings.max_reroutes` times per turn no matter how many directives keep
arriving — the total number of specialist invocations (initial dispatch
included) is at most `1 + max_reroutes` — and when the cap silently stops
further hand-off the response kept is the last executed hop's text. -/
theorem C9_reroute_cap (env : TurnEnv) (sink : Option Sink)
    (hist : List Message) (out : TurnOut)
    (h : process_message env sink hist = .ok out) :
    out.hopResults.length ≤ 1 + settings.max_reroutes ∧
    (out.hopResults ≠ [] →
      out.res.response = (out.hopResults.getLastD dummyAgentResult).text) := by
  simp only [process_message] at h
  split at h
  · exact Except.noConfusion h
  · next router_result delivered hap =>
    split at h
    · split at h
      · exact Except.noConfusion h
      · split at h
        · exact Except.noConfusion h
        · cases h; exact ⟨by simp, fun hne => absurd rfl hne⟩
    · split at h
      · split at h
        · exact Except.noConfusion h
        · cases h; exact ⟨by simp, fun hne => absurd rfl hne⟩
      · split at h
        · exact Except.noConfusion h
        · split at h
          · exact Except.noConfusion h
          · split at h
            · exact Except.noConfusion h
            · next spec0 d2 hap2 =>
              split at h
              · exact Except.noConfusion h
              · next sp' r' txt' evs' d3 hops hloop =>
                split at h
                · exact Except.noConfusion h
                · cases h
                  have hlem := rerouteLoop_ok env sink settings.max_reroutes _ _ _ _ _ _ _ hloop
                  have h2 := hlem.2 (by simp) rfl
                  refine ⟨?_, fun _ => ?_⟩
                  · have h1 := hlem.1
                    simp only [List.length_singleton] at h1
                    show hops.length ≤ 1 + settings.max_reroutes
                    omega
                  · show txt' = (hops.getLastD dummyAgentResult).text
                    simp only [List.getLastD_eq_getLast?, h2.1, Option.getD_some]
                    exact h2.2

/-- Specialist behavior of the C9 run: every hop keeps handing off. -/
def c9Hop : HopBehavior :=
  { text := "handing off again", thinking := "", classification := none,
    reroute := some c2Directive, innerEvents := [], latency := 10 }

/-- Turn environment of the C9 run: reroute directives never stop
arriving. -/
def c9Env : TurnEnv :=
  { message := "cancel everything", customer_id := "C-1001",
    conversation_id := "c9", image := none, routerBehavior := c2Router,
    hopBehaviors := fun _ => c9Hop, escRef := "AB12CD" }

/-- The C9 run outcome. -/
def c9out : TurnOut := (process_message c9Env none []).toOption.getD dummyTurnOut

/-- C9 witness: with directives arriving forever, exactly
`1 + max_reroutes = 3` specialist invocations happen and the last hop's text
is kept. -/
theorem C9_reroute_cap_witness :
    process_message c9Env none [] = .ok c9out ∧
    c9out.hopResults.length = 1 + settings.max_reroutes ∧
    c9out.hopResults.length ≤ 1 + settings.max_reroutes ∧
    c9out.res.response = (c9out.hopResults.getLastD dummyAgentResult).text :=
  ⟨rfl, by decide,
   (C9_reroute_cap c9Env none [] c9out rfl).1,
   (C9_reroute_cap c9Env none [] c9out rfl).2
     (fun hemp => absurd (congrArg List.length hemp) (by decide))⟩

/-- C5 (amended): with a live sink attached, every event in the returned
events list was delivered to the sink, in emission order (the returned list
is an in-order sublist of the delivered trace) — but not conversely: the
orchestrator-synthesized events (model_switch, reroute, the final response
event and the escalation start/response pair) are delivered to the sink only
and never merged into the returned list, see the counterexample. -/
theorem C5_returned_events_sublist_of_delivered (env : TurnEnv) (f : Sink)
    (hist : List Message) (out : TurnOut)
    (h : process_message env (some f) hist = .ok out) :
    out.res.events.Sublist out.delivered := by
  simp only [process_message] at h
  split at h
  · exact Except.noConfusion h
  · next router_result delivered hap =>
    have hd0 : delivered = [] ++ router_result.events := agentProcess_ok_some hap
    split at h
    · split at h
      · exact Except.noConfusion h
      · next d1 hc1 =>
        split at h
        · exact Except.noConfusion h
        · next d2 hc2 =>
          cases h
          rw [callSink_ok_some hc2, callSink_ok_some hc1, hd0]
          simp only [List.nil_append, List.append_assoc]
          exact List.sublist_append_left _ _
    · split at h
      · split at h
        · exact Except.noConfusion h
        · next d1 hc1 =>
          cases h
          rw [callSink_ok_some hc1, hd0]
          simp only [List.nil_append]
          exact List.sublist_append_left _ _
      · split at h
        · exact Except.noConfusion h
        · split at h
          · exact Except.noConfusion h
          · next d1 hmsres =>
            split at h
            · exact Except.noConfusion h
            · next spec0 d2 hap2 =>
              split at h
              · exact Except.noConfusion h
              · next sp' r' txt' evs' d3 hops hloop =>
                split at h
                · exact Except.noConfusion h
                · next d4 hc4 =>
                  cases h
                  obtain ⟨E, D, hE, hD, hS⟩ :=
                    rerouteLoop_ok_sublist env f settings.max_reroutes _ _ _ _ _ _ _ hloop
                  have hd2 : d2 = d1 ++ spec0.events := agentProcess_ok_some hap2
                  obtain ⟨M, hM⟩ : ∃ M, d1 = delivered ++ M := by
                    split at hmsres
                    · exact ⟨_, callSink_ok_some hmsres⟩
                    · exact ⟨[], by simpa using (Except.ok.inj hmsres).symm⟩
                  rw [callSink_ok_some hc4, hE, hD, hd2, hM, hd0]
                  simp only [List.nil_append, List.append_assoc]
                  refine List.Sublist.append (List.Sublist.refl _) ?_
                  refine List.Sublist.trans ?_ (List.sublist_append_right M _)
                  refine List.Sublist.append (List.Sublist.refl _) ?_
                  exact List.Sublist.trans hS (List.sublist_append_left _ _)

/-- Turn environment of the C5 run: a CLARIFY turn observed through an
always-succeeding live sink. -/
def c5Env : TurnEnv :=
  { message := "hello", customer_id := "C-1001", conversation_id := "c5",
    image := none, routerBehavior := c10ClarifyRouter,
    hopBehaviors := fun _ => c6HopBehavior, escRef := "AB12CD" }

/-- The C5 run outcome (always-succeeding sink). -/
def c5out : TurnOut :=
  (process_message c5Env (some fun _ => true) []).toOption.getD dummyTurnOut

/-- The CLARIFY response event the orchestrator sends to the live sink. -/
def c5ResponseEvent : Event :=
  .response clarifyText "router" settings.model1_display settings.model1_qgpu_slice
    (some settings.model1_base_url) 50

set_option maxRecDepth 40000 in
/-- C5 counterexample: the CLARIFY response event is delivered to the live
sink but does not appear in the events list of the returned result — the
returned list is not the full delivered stream, refuting the claim. -/
theorem C5_counterexample :
    (process_message c5Env (some fun _ => true) []).toOption.isSome = true ∧
    c5ResponseEvent ∈ c5out.delivered ∧
    c5ResponseEvent ∉ c5out.res.events :=
  ⟨rfl, by decide, by decide⟩

/-- C5 witness: the amended sublist property instantiated on the CLARIFY
run. -/
theorem C5_returned_events_sublist_of_delivered_witness :
    process_message c5Env (some fun _ => true) [] = .ok c5out ∧
    c5out.res.events.Sublist c5out.delivered :=
  ⟨rfl, C5_returned_events_sublist_of_delivered c5Env (fun _ => true) [] c5out rfl⟩

/-- C4 (amended): sink exceptions are not caught — `emit` awaits the
callback bare and `process_message` calls it bare too, so an event sink that
raises aborts the turn and the exception propagates out of `process` and
`process_message` uncaught.  In particular any sink that raises on the
turn's first event, the router's `agent_start`, makes every turn propagate
instead of returning a result. -/
theorem C4_raising_sink_aborts_turn (env : TurnEnv) (hist : List Message) (f : Sink)
    (hf : f (.agent_start "router" (settings.get_model_info "router")) = false) :
    process_message env (some f) hist = .error () := by
  have hagent : agentProcess router_agent env.routerBehavior (some f) [] = .error () := by
    simp [agentProcess, emitLocal, callSink, router_agent, Agent.model_info, hf]
  simp [process_message, hagent]

/-- Turn environment of the C4 runs. -/
def c4Env : TurnEnv :=
  { message := "where is my order", customer_id := "C-1001", conversation_id := "c4",
    image := none, routerBehavior := c6RouterBehavior,
    hopBehaviors := fun _ => c6HopBehavior, escRef := "AB12CD" }

/-- C4 counterexample: with a sink that raises on every event,
`process_message` does not complete — the very first emitted event
(`agent_start` from the router's `process`) aborts the turn and the
exception propagates out of the orchestrator, refuting the claim. -/
theorem C4_counterexample :
    process_message c4Env (some fun _ => false) [] = .error () := rfl

/-- C4 witness: the amended theorem instantiated at a concrete turn with
the everywhere-raising sink. -/
theorem C4_raising_sink_aborts_turn_witness :
    ((fun _ : Event => false) (.agent_start "router" (settings.get_model_info "router"))
      = false) ∧
    process_message c4Env (some fun _ => false) [] = .error () :=
  ⟨rfl, C4_raising_sink_aborts_turn c4Env [] (fun _ => false) rfl⟩

/-- C3 (amended): when every iteration up to the cap performs a successfully
parsed tool call (so a tool-call tag is still pending when the cap is hit),
the loop exhausts its iterations and the returned text is the EMPTY string —
`full_response` is initialized to `""` and only assigned on the
final-response exit — not the last raw backend output; no exception is
raised and no apology-error return is taken. -/
theorem C3_cap_with_pending_tool_returns_empty (env : LlmEnv) (messages0 : List PyMsg)
    (h : ∀ i, i < settings.max_tool_iterations → (stepKindOf (env.backend i)).isTool = true) :
    (llmProcess env messages0).text = "" ∧ (llmProcess env messages0).err = none := by
  unfold llmProcess
  exact llmLoop_all_tool env settings.max_tool_iterations 0 messages0 "" [] []
    (fun i _ h2 => h i (by omega))

/-- The raw backend output of every C3 iteration: a well-formed tool call. -/
def c3ToolOut : String :=
  "<tool_call>\x7b\"name\": \"get_order_status\", \"args\": \x7b\"order_id\": \"ORD-2024-1\"\x7d\x7d</tool_call>"

/-- The tool registry of the C3 run. -/
def c3Tools (name : String) : Option (Json → Json) :=
  if name = "get_order_status" then some (fun _ => Json.obj [("status", .str "in_transit")])
  else none

/-- The `_llm_process` environment of the C3 run: the backend answers every
call with the same tool-call output. -/
def c3Env : LlmEnv :=
  { backend := fun _ => .ok c3ToolOut, tools := c3Tools, toolMs := fun _ => 2,
    model_display := settings.model2_display }

/-- The assembled request context of the C3 run. -/
def c3Messages : List PyMsg :=
  [⟨"system", "order tracker prompt"⟩, ⟨"user", "Where is my order?"⟩]

/-- C3 counterexample: with a tool call in every iteration, the returned
text is the empty string while the last raw (unfinalized) backend output is
the nonempty tool-call text — the claim that the last raw output becomes the
response (and that the response is not empty) is false. -/
theorem C3_counterexample :
    (llmProcess c3Env c3Messages).text = "" ∧
    c3Env.backend 4 = .ok c3ToolOut ∧ c3ToolOut ≠ "" :=
  ⟨rfl, rfl, by decide⟩

/-- C3 witness: the amended theorem instantiated on the always-tool-call
backend. -/
theorem C3_cap_with_pending_tool_returns_empty_witness :
    (∀ i, i < settings.max_tool_iterations → (stepKindOf (c3Env.backend i)).isTool = true) ∧
    (llmProcess c3Env c3Messages).text = "" ∧ (llmProcess c3Env c3Messages).err = none :=
  ⟨by decide, C3_cap_with_pending_tool_returns_empty c3Env c3Messages (by decide)⟩

end Taco
